import Mathlib

/-!
Verification of the PosyanduDigital OCR worker pipeline
(worker/pipeline/{table_detector,cell_extractor,text_recognizer,schema_mapper}.py
and worker/main.py), shallowly embedded in Lean.

Conventions of the embedding:
* Python `float` values are modelled as exact rationals (`ℚ`); the
  non-finite results of `float(...)` are modelled by a dedicated
  `PyFloat` type.  Binary-floating-point rounding is not modelled.
* Python strings are Lean `String`s; the relevant `str` methods
  (`strip`, `replace(",", ".")`, `upper`, `lower`) are re-implemented
  character-wise (ASCII behaviour, which is all the pipeline exercises).
* External collaborators (the layout model, the vision model, image
  buffers) are abstracted as explicit parameters; everything the
  repository itself computes is transcribed from the source.
-/

/-! ## Python string helpers -/

/-- Whitespace characters stripped by Python's `str.strip()` / `float()`
(ASCII subset). -/
def isPyWs (c : Char) : Bool :=
  c = ' ' || c = '\t' || c = '\n' || c = '\r' || c = '\x0b' || c = '\x0c'

/-- Strip leading and trailing whitespace from a character list. -/
def stripList (cs : List Char) : List Char :=
  ((cs.dropWhile isPyWs).reverse.dropWhile isPyWs).reverse

/-- Python `str.strip()`. -/
def pyStrip (s : String) : String := String.mk (stripList s.data)

/-- Python `str.upper()` (ASCII). -/
def pyUpper (s : String) : String := String.mk (s.data.map Char.toUpper)

/-- Python `str.lower()` (ASCII). -/
def pyLower (s : String) : String := String.mk (s.data.map Char.toLower)

/-- Python `text.replace(",", ".")`: the single-character pattern makes
this a character-wise map. -/
def replaceCommaDot (s : String) : String :=
  String.mk (s.data.map (fun c => if c = ',' then '.' else c))

/-- Numeric value of a list of decimal digit characters (Python `int`). -/
def digitsToNat (ds : List Char) : ℕ :=
  ds.foldl (fun a c => 10 * a + (c.toNat - 48)) 0

/-! ## Python `float(...)` -/

/-- Result of a successful Python `float(...)` conversion: a finite value
or one of the non-finite specials. -/
inductive PyFloat where
  | fin : ℚ → PyFloat
  | inf : PyFloat
  | ninf : PyFloat
  | nan : PyFloat
deriving DecidableEq

/-- Continue a digit run after an initial digit: Python number grammar
`digit (["_"] digit)*` (underscores allowed only between digits).
Returns the digits collected and the unconsumed rest. -/
def digMore : List Char → List Char × List Char
  | [] => ([], [])
  | [c] => if c.isDigit then ([c], []) else ([], [c])
  | c :: d :: rest =>
    if c.isDigit then
      let p := digMore (d :: rest)
      (c :: p.1, p.2)
    else if c = '_' ∧ d.isDigit then
      let p := digMore rest
      (d :: p.1, p.2)
    else ([], c :: d :: rest)

/-- A digit part: at least one digit, then `digMore`. -/
def digitPart : List Char → Option (List Char × List Char)
  | [] => none
  | c :: cs =>
    if c.isDigit then
      let p := digMore cs
      some (c :: p.1, p.2)
    else none

/-- Case-insensitive literal match; the pattern is given lowercase.
Returns the unconsumed rest on success. -/
def matchCI : List Char → List Char → Option (List Char)
  | [], rest => some rest
  | _ :: _, [] => none
  | p :: ps, c :: rest => if c.toLower = p then matchCI ps rest else none

/-- Exponent of a Python float literal (the part after `e`/`E`). -/
def expPart (cs : List Char) : Option (ℤ × List Char) :=
  let sp : ℤ × List Char :=
    match cs with
    | '+' :: t => (1, t)
    | '-' :: t => (-1, t)
    | _ => (1, cs)
  match digitPart sp.2 with
  | some (ds, rest) => some (sp.1 * (digitsToNat ds : ℤ), rest)
  | none => none

/-- Mantissa-and-exponent of a Python float literal
(`[digits] ["." [digits]] [("e"|"E") [sign] digits]`, at least one
mantissa digit).  Returns the value and the unconsumed rest. -/
def parseNumber (cs : List Char) : Option (ℚ × List Char) :=
  let ipr : Option (List Char) × List Char :=
    match digitPart cs with
    | some (ds, r) => (some ds, r)
    | none => (none, cs)
  let fpr : List Char × List Char :=
    match ipr.2 with
    | '.' :: t =>
      (match digitPart t with
       | some (ds, r) => (ds, r)
       | none => ([], t))
    | _ => ([], ipr.2)
  if ipr.1 = none ∧ fpr.1 = [] then none
  else
    let mant : ℚ :=
      (digitsToNat (ipr.1.getD []) : ℚ) +
        (digitsToNat fpr.1 : ℚ) / (10 : ℚ) ^ fpr.1.length
    match fpr.2 with
    | c :: t =>
      if c = 'e' ∨ c = 'E' then
        match expPart t with
        | some (e, r3) => some (mant * (10 : ℚ) ^ e, r3)
        | none => none
      else some (mant, c :: t)
    | [] => some (mant, [])

/-- Python `float(s)`: strip whitespace, optional sign, then
`inf`/`infinity`/`nan` (case-insensitive) or a numeric literal; the whole
string must be consumed.  `none` models `ValueError`. -/
def pyFloat (s : String) : Option PyFloat :=
  let cs := stripList s.data
  let sp : Bool × List Char :=
    match cs with
    | '+' :: t => (false, t)
    | '-' :: t => (true, t)
    | _ => (false, cs)
  match matchCI "infinity".data sp.2 with
  | some [] => some (if sp.1 then .ninf else .inf)
  | _ =>
    match matchCI "inf".data sp.2 with
    | some [] => some (if sp.1 then .ninf else .inf)
    | _ =>
      match matchCI "nan".data sp.2 with
      | some [] => some .nan
      | _ =>
        match parseNumber sp.2 with
        | some (v, []) => some (.fin (if sp.1 then -v else v))
        | _ => none

/-- Python chained comparison `a <= val <= b` on a `float(...)` result:
false on every non-finite value (`nan` compares false, `inf`/`-inf`
fail one of the two bounds). -/
def pyInRange (a : ℚ) (v : PyFloat) (b : ℚ) : Bool :=
  match v with
  | .fin q => decide (a ≤ q ∧ q ≤ b)
  | _ => false

/-! ## Date parsing (`schema_mapper._parse_date`) -/

/-- Take exactly `n` decimal digits from the front of the input,
returning them and the rest. -/
def grabDigits : ℕ → List Char → Option (List Char × List Char)
  | 0, cs => some ([], cs)
  | _ + 1, [] => none
  | n + 1, c :: cs =>
    if c.isDigit then (grabDigits n cs).map (fun p => (c :: p.1, p.2))
    else none

/-- One of the separators of the date pattern `[/\-.]`. -/
def grabSep : List Char → Option (List Char)
  | [] => none
  | c :: cs => if c = '/' ∨ c = '-' ∨ c = '.' then some cs else none

/-- The year group of the date pattern: 2 to 4 digits, greedy
(nothing follows it in the pattern, so no backtracking is needed). -/
def grabYear (cs : List Char) : Option (List Char) :=
  match grabDigits 4 cs with
  | some (ds, _) => some ds
  | none =>
    match grabDigits 3 cs with
    | some (ds, _) => some ds
    | none =>
      match grabDigits 2 cs with
      | some (ds, _) => some ds
      | none => none

/-- One backtracking alternative of the date pattern, with fixed
day/month group widths. -/
def matchDM (dlen mlen : ℕ) (cs : List Char) : Option (String × String × String) := do
  let dp ← grabDigits dlen cs
  let r2 ← grabSep dp.2
  let mp ← grabDigits mlen r2
  let r4 ← grabSep mp.2
  let y ← grabYear r4
  pure (String.mk dp.1, String.mk mp.1, String.mk y)

/-- Python `re.match` of the pattern
`(\d{1,2})[/\-.](\d{1,2})[/\-.](\d{2,4})`: anchored at the start,
trailing characters allowed, greedy groups with backtracking. -/
def matchDMY (s : String) : Option (String × String × String) :=
  matchDM 2 2 s.data <|> matchDM 2 1 s.data <|>
    matchDM 1 2 s.data <|> matchDM 1 1 s.data

/-- Gregorian leap year, as `datetime` uses. -/
def isLeap (y : ℕ) : Bool := y % 4 = 0 ∧ (y % 100 ≠ 0 ∨ y % 400 = 0)

/-- Number of days of a month, as `datetime` uses. -/
def daysInMonth (y m : ℕ) : ℕ :=
  if m = 2 then (if isLeap y then 29 else 28)
  else if m = 4 ∨ m = 6 ∨ m = 9 ∨ m = 11 then 30
  else 31

/-- `datetime(year, month, day)` succeeds exactly on these arguments
(`MINYEAR = 1`, `MAXYEAR = 9999`). -/
def validDate (y m d : ℕ) : Bool :=
  1 ≤ y ∧ y ≤ 9999 ∧ 1 ≤ m ∧ m ≤ 12 ∧ 1 ≤ d ∧ d ≤ daysInMonth y m

/-- Python `f"{n:02d}"` for the day/month values (at most two digits). -/
def pad2 (n : ℕ) : String := if n < 10 then "0" ++ toString n else toString n

/-- `schema_mapper._parse_date`: match the day/month/year pattern,
expand a 2-digit year with pivot 50, build a calendar date, accept only
years 2010–2030, and format as zero-padded `DD/MM/YYYY`. -/
def parse_date (raw : String) : Option String :=
  if raw = "" then none
  else
    match matchDMY raw with
    | none => none
    | some (d, m, y) =>
      let yearStr :=
        if y.length = 2 then
          (if digitsToNat y.data < 50 then "20" ++ y else "19" ++ y)
        else y
      let yv := digitsToNat yearStr.data
      let mv := digitsToNat m.data
      let dv := digitsToNat d.data
      if validDate yv mv dv ∧ 2010 ≤ yv ∧ yv ≤ 2030 then
        some (pad2 dv ++ "/" ++ pad2 mv ++ "/" ++ yearStr)
      else none

/-! ## Field parsing (`schema_mapper._parse_field`) -/

/-- `schema_mapper._parse_field`: trim, `none` on empty text, then a
field-specific normalization that always preserves non-empty text. -/
def parse_field (field raw0 : String) : Option String :=
  let raw := pyStrip raw0
  if raw = "" then none
  else if field = "bb_lalu" ∨ field = "bb_sekarang" ∨ field = "tb" then
    let cleaned := replaceCommaDot raw
    match pyFloat cleaned with
    | some _ => some cleaned
    | none => some raw
  else if field = "tanggal_lahir" then
    some ((parse_date raw).getD raw)
  else if field = "jenis_kelamin" then
    let u := pyUpper raw
    if u = "L" ∨ u = "LAKI" ∨ u = "LAKI-LAKI" ∨ u = "PRIA" then some "L"
    else if u = "P" ∨ u = "PEREMPUAN" ∨ u = "WANITA" then some "P"
    else some raw
  else if field = "status_nt" then
    let u := pyUpper raw
    if u = "N" ∨ u = "NAIK" then some "N"
    else if u = "T" ∨ u = "TIDAK" ∨ u = "TIDAK NAIK" then some "T"
    else some raw
  else some raw

/-! ## Confidence scoring (`text_recognizer._calculate_confidence`) -/

/-- Number of alphabetic characters of a string (Python
`sum(1 for c in text if c.isalpha())`, ASCII). -/
def alphaCount (s : String) : ℕ := (s.data.filter Char.isAlpha).length

/-- Python `round(q, 2)` on exact rationals: round to a multiple of
1/100.  (CPython rounds the underlying binary float to nearest-even;
on the exact values this pipeline produces the two agree except on
representation-error ties, which no property here depends on.) -/
def pyRound2 (q : ℚ) : ℚ := (round (q * 100) : ℤ) / 100

/-- The per-field base score of `_calculate_confidence` for non-empty
text (default 0.75, adjusted by the field-specific validations). -/
def baseConfidence (text field : String) : ℚ :=
  if field = "bb_lalu" ∨ field = "bb_sekarang" then
    match pyFloat (replaceCommaDot text) with
    | some v => if pyInRange 1 v 30 then 0.90 else 0.75
    | none => 0.40
  else if field = "tb" then
    match pyFloat (replaceCommaDot text) with
    | some v => if pyInRange 30 v 130 then 0.90 else 0.75
    | none => 0.40
  else if field = "jenis_kelamin" then
    if pyUpper text = "L" ∨ pyUpper text = "P" ∨ pyUpper text = "LAKI-LAKI" ∨
        pyUpper text = "PEREMPUAN" then 0.95
    else 0.30
  else if field = "tanggal_lahir" then
    if (matchDMY text).isSome then 0.88 else 0.45
  else if field = "status_nt" then
    if pyUpper text = "N" ∨ pyUpper text = "T" ∨ pyUpper text = "NAIK" ∨
        pyUpper text = "TIDAK" ∨ pyUpper text = "TIDAK NAIK" then 0.95
    else 0.35
  else if field = "umur" then
    if text.data.any Char.isDigit then 0.85 else 0.45
  else if field = "nama_anak" then
    if (alphaCount text : ℚ) / (max text.length 1 : ℕ) > 0.7 then 0.85 else 0.75
  else 0.75

/-- `text_recognizer._calculate_confidence (text, field_name, hint)`:
0.3/0.5 for empty text, otherwise the per-field base, a +0.10 boost
(capped at 1.0) when the hint agrees with the text case-insensitively
after trimming, rounded to two decimals. -/
def calcConfidence (text field hint : String) : ℚ :=
  if text = "" then (if hint = "" then 0.3 else 0.5)
  else
    let base := baseConfidence text field
    let boosted :=
      if hint ≠ "" ∧ pyStrip (pyLower hint) = pyStrip (pyLower text) then
        min (base + 0.10) 1
      else base
    pyRound2 boosted

/-! ## Data model -/

/-- Axis-aligned bounding box `{x, y, width, height}` as stored on cells
and rows. -/
structure BBox where
  x : ℤ
  y : ℤ
  width : ℤ
  height : ℤ
deriving DecidableEq

/-- A cell produced by the table detector
(`{row_idx, col_idx, x1, y1, x2, y2, text_hint?}`); cells of the OpenCV
fallback carry no hint, modelled as `""` (which is how
`cell.get("text_hint", "")` reads them). -/
structure TableCell where
  row_idx : ℕ
  col_idx : ℕ
  x1 : ℤ
  y1 : ℤ
  x2 : ℤ
  y2 : ℤ
  text_hint : String := ""
deriving DecidableEq

/-- An `ExtractedCell` of `cell_extractor.extract_cells`: the pixel crop
is represented by its dimensions (`crop_w × crop_h`; numpy
`crop.size == 0` iff a dimension is zero). -/
structure ExtractedCell where
  row_idx : ℕ
  col_idx : ℕ
  field_name : String
  field_context : String
  crop_w : ℤ
  crop_h : ℤ
  text_hint : String
  bbox : BBox
deriving DecidableEq

/-- A `RecognizedCell`: the extracted cell plus `text`, `confidence` and
the optional `error` note added by the text recognizer. -/
structure RecognizedCell where
  row_idx : ℕ
  col_idx : ℕ
  field_name : String
  field_context : String
  crop_w : ℤ
  crop_h : ℤ
  text_hint : String
  bbox : BBox
  text : String
  confidence : ℚ
  error : Option String
deriving DecidableEq

/-! ## Cell extraction (`cell_extractor.py`) -/

/-- `cell_extractor.COLUMN_FIELD_MAP`: column index to field name. -/
def COLUMN_FIELD_MAP (i : ℕ) : Option String :=
  match i with
  | 0 => some "nama_anak"
  | 1 => some "tanggal_lahir"
  | 2 => some "umur"
  | 3 => some "jenis_kelamin"
  | 4 => some "nama_ibu"
  | 5 => some "alamat"
  | 6 => some "bb_lalu"
  | 7 => some "bb_sekarang"
  | 8 => some "tb"
  | 9 => some "status_nt"
  | _ => none

/-- `cell_extractor.FIELD_CONTEXT`: recognition-context string per field. -/
def FIELD_CONTEXT (f : String) : Option String :=
  if f = "nama_anak" then
    some "Nama lengkap anak balita, bahasa Indonesia, kemungkinan tulisan tangan"
  else if f = "tanggal_lahir" then
    some "Tanggal lahir anak, format DD/MM/YYYY atau DD-MM-YYYY"
  else if f = "umur" then
    some "Umur anak dalam bulan atau tahun-bulan, contoh: 24 bln, 2 th 3 bln"
  else if f = "jenis_kelamin" then
    some "Jenis kelamin anak, L untuk laki-laki atau P untuk perempuan"
  else if f = "nama_ibu" then some "Nama ibu kandung anak, bahasa Indonesia"
  else if f = "alamat" then
    some "Alamat rumah, bisa singkatan RT/RW, nama dusun/kampung"
  else if f = "bb_lalu" then
    some "Berat badan bulan lalu dalam kg, format X.X seperti 8.5 atau 12.0"
  else if f = "bb_sekarang" then
    some "Berat badan bulan ini dalam kg, format X.X seperti 8.5 atau 12.0"
  else if f = "tb" then
    some "Tinggi/panjang badan anak dalam cm, format XX.X seperti 75.5 atau 100.0"
  else if f = "status_nt" then
    some "Status kenaikan berat badan: N berarti Naik, T berarti Tidak Naik"
  else none

/-- `cell_extractor.extract_cells` on an image of width `W` and height
`H`: skip the header row, skip unmapped columns, clip the bbox to the
image, skip empty clips, crop and attach field metadata. -/
def extract_cells (W H : ℤ) (table_cells : List TableCell) : List ExtractedCell :=
  table_cells.filterMap (fun cell =>
    if cell.row_idx = 0 then none
    else
      match COLUMN_FIELD_MAP cell.col_idx with
      | none => none
      | some fname =>
        let x1 := max 0 cell.x1
        let y1 := max 0 cell.y1
        let x2 := min W cell.x2
        let y2 := min H cell.y2
        if x2 ≤ x1 ∨ y2 ≤ y1 then none
        else
          some { row_idx := cell.row_idx, col_idx := cell.col_idx,
                 field_name := fname,
                 field_context := (FIELD_CONTEXT fname).getD "",
                 crop_w := x2 - x1, crop_h := y2 - y1,
                 text_hint := cell.text_hint,
                 bbox := ⟨x1, y1, x2 - x1, y2 - y1⟩ })

/-! ## Text recognition (`text_recognizer.py`) -/

/-- The settled result of one cell's external recognition call:
`.ok t` is the model's `response.text` (`""` standing for a null text),
`.error e` is a task that raised (exception, timeout, malformed
response), as collected by `asyncio.gather(..., return_exceptions=True)`. -/
abbrev CallOutcome := Except String String

/-- `text_recognizer._recognize_cell` plus the per-cell error capture of
`recognize_cells`: an empty crop short-circuits to empty text and zero
confidence without calling the model; a raised task is recorded as empty
text, zero confidence and an error note; otherwise the stripped response
text is scored by `_calculate_confidence` against the field and hint. -/
def recognize_one (call : ExtractedCell → CallOutcome) (c : ExtractedCell) :
    RecognizedCell :=
  if c.crop_w * c.crop_h = 0 then
    { row_idx := c.row_idx, col_idx := c.col_idx, field_name := c.field_name,
      field_context := c.field_context, crop_w := c.crop_w, crop_h := c.crop_h,
      text_hint := c.text_hint, bbox := c.bbox,
      text := "", confidence := 0, error := none }
  else
    match call c with
    | .error e =>
      { row_idx := c.row_idx, col_idx := c.col_idx, field_name := c.field_name,
        field_context := c.field_context, crop_w := c.crop_w, crop_h := c.crop_h,
        text_hint := c.text_hint, bbox := c.bbox,
        text := "", confidence := 0, error := some e }
    | .ok t =>
      let raw := pyStrip t
      { row_idx := c.row_idx, col_idx := c.col_idx, field_name := c.field_name,
        field_context := c.field_context, crop_w := c.crop_w, crop_h := c.crop_h,
        text_hint := c.text_hint, bbox := c.bbox,
        text := raw, confidence := calcConfidence raw c.field_name c.text_hint,
        error := none }

/-- `text_recognizer.recognize_cells`: the bounded fan-out
(`asyncio.gather` with `return_exceptions=True`) settles one outcome per
input cell, and `zip(cell_data, results)` emits one record per input in
input order. -/
def recognize_cells (call : ExtractedCell → CallOutcome)
    (cells : List ExtractedCell) : List RecognizedCell :=
  cells.map (recognize_one call)

/-! ## Schema mapping (`schema_mapper.map_to_schema`) -/

/-- Python dict assignment `d[k] = v` on an insertion-ordered
association list: overwrite in place, or append at the end. -/
def upsert {α : Type} (k : String) (v : α) :
    List (String × α) → List (String × α)
  | [] => [(k, v)]
  | p :: rest => if p.1 = k then (k, v) :: rest else p :: upsert k v rest

/-- The per-row accumulator of `map_to_schema`: `row_index`, the
`_confidences` and `_bboxes` dicts, and the parsed field values, all in
insertion order. -/
structure RowBuild where
  row_index : ℕ
  confidences : List (String × ℚ) := []
  bboxes : List (String × BBox) := []
  fields : List (String × Option String) := []
deriving DecidableEq

/-- An assembled `Row`: the accumulator plus `_confidence_avg`. -/
structure Row extends RowBuild where
  confidence_avg : ℚ
deriving DecidableEq

/-- The body of `map_to_schema`'s loop for one cell: store the field's
confidence and bbox, and the parsed value. -/
def updateRow (b : RowBuild) (c : RecognizedCell) : RowBuild :=
  { b with
    confidences := upsert c.field_name c.confidence b.confidences,
    bboxes := upsert c.field_name c.bbox b.bboxes,
    fields := upsert c.field_name (parse_field c.field_name c.text) b.fields }

/-- `rows[row_idx]` lookup-or-create on the insertion-ordered `rows`
dict, followed by the loop body for the cell. -/
def insertCell : List RowBuild → RecognizedCell → List RowBuild
  | [], c => [updateRow { row_index := c.row_idx } c]
  | b :: bs, c =>
    if b.row_index = c.row_idx then updateRow b c :: bs
    else b :: insertCell bs c

/-- The grouping loop of `map_to_schema` over all recognized cells. -/
def buildRows (cells : List RecognizedCell) : List RowBuild :=
  cells.foldl insertCell []

/-- The second pass of `map_to_schema`:
`round(sum(conf_values)/len(conf_values), 2) if conf_values else 0.0`. -/
def finishRow (b : RowBuild) : Row :=
  { toRowBuild := b,
    confidence_avg :=
      if b.confidences = [] then 0
      else pyRound2 ((b.confidences.map Prod.snd).sum /
        (b.confidences.length : ℚ)) }

/-- Stable insertion of a row into a list sorted by `row_index`
ascending. -/
def insRow (r : Row) : List Row → List Row
  | [] => [r]
  | x :: xs =>
    if x.row_index < r.row_index then x :: insRow r xs else r :: x :: xs

/-- `sorted(result, key=lambda r: r["row_index"])` (a stable sort, as
Python's). -/
def sortRows (l : List Row) : List Row := l.foldr insRow []

/-- `schema_mapper.map_to_schema`: group cells by `row_idx`, parse each
field, attach per-field confidences and bboxes, average, and emit rows
sorted by `row_index`. -/
def map_to_schema (recognized_cells : List RecognizedCell) : List Row :=
  sortRows ((buildRows recognized_cells).map finishRow)

/-! ## Table detection (`table_detector.py`) -/

/-- A candidate rectangle `(x, y, w, h)` from `cv2.boundingRect`. -/
structure Rect where
  x : ℤ
  y : ℤ
  w : ℤ
  h : ℤ
deriving DecidableEq

/-- A rectangle in `(x1, y1, x2, y2)` form, as `_detect_with_opencv`
appends them. -/
structure Box where
  x1 : ℤ
  y1 : ℤ
  x2 : ℤ
  y2 : ℤ
deriving DecidableEq

/-- Lexicographic key `(y1, x1)` of `sorted(rects, key=lambda r: (r[1], r[0]))`. -/
def boxKeyLt (a b : Box) : Prop :=
  a.y1 < b.y1 ∨ (a.y1 = b.y1 ∧ a.x1 < b.x1)

instance (a b : Box) : Decidable (boxKeyLt a b) := by
  unfold boxKeyLt; infer_instance

/-- Stable insertion by the `(y1, x1)` key. -/
def insBoxYX (a : Box) : List Box → List Box
  | [] => [a]
  | x :: xs => if boxKeyLt x a then x :: insBoxYX a xs else a :: x :: xs

/-- `sorted(rects, key=lambda r: (r[1], r[0]))` (stable). -/
def sortBoxesYX (l : List Box) : List Box := l.foldr insBoxYX []

/-- Stable insertion by `x1`. -/
def insBoxX (a : Box) : List Box → List Box
  | [] => [a]
  | x :: xs => if x.x1 < a.x1 then x :: insBoxX a xs else a :: x :: xs

/-- `sorted(current_row, key=lambda r: r[0])` (stable). -/
def sortBoxesX (l : List Box) : List Box := l.foldr insBoxX []

/-- The row-clustering loop of `_assign_row_col`: group boxes whose top
`y1` lies within 15px of the current row's first `y1`; each finished row
is sorted left-to-right. -/
def clusterRows (row_y : ℤ) (current : List Box) : List Box → List (List Box)
  | [] => [sortBoxesX current]
  | r :: rest =>
    if (r.y1 - row_y).natAbs < 15 then clusterRows row_y (current ++ [r]) rest
    else sortBoxesX current :: clusterRows r.y1 [r] rest

/-- `table_detector._assign_row_col`: sort by `(y, x)`, cluster into
rows, and enumerate row and column indices.  An empty input yields an
empty cell list. -/
def assign_row_col (rects : List Box) : List TableCell :=
  match sortBoxesYX rects with
  | [] => []
  | r :: rest =>
    ((clusterRows r.y1 [r] rest).enum.map (fun p =>
      p.2.enum.map (fun q =>
        TableCell.mk p.1 q.1 q.2.x1 q.2.y1 q.2.x2 q.2.y2 ""))).flatten

/-- `table_detector._detect_with_opencv` on an image of width `W` and
height `H`, with the connected components found by `cv2.findContours`
abstracted as the input `contours`: keep plausibly-sized components
(`w > 30 and h > 15 and area < img_area * 0.8`) and assign row/column
indices.  It never raises. -/
def detect_with_opencv (W H : ℤ) (contours : List Rect) : List TableCell :=
  let rects := contours.filterMap (fun r =>
    if 30 < r.w ∧ 15 < r.h ∧ 5 * (r.w * r.h) < 4 * (H * W) then
      some (⟨r.x, r.y, r.x + r.w, r.y + r.h⟩ : Box)
    else none)
  assign_row_col rects

/-- `table_detector._detect_with_paddleocr`, with the external layout
model and HTML parsing abstracted: `none` models the external call
raising, `some cells` the parsed table cells.  The function itself
raises `ValueError` when parsing yields zero cells. -/
def detect_with_paddleocr (modelCells : Option (List TableCell)) :
    Except String (List TableCell) :=
  match modelCells with
  | none => .error "PP-StructureV3 raised"
  | some cells =>
    if cells = [] then .error "No table detected by PP-StructureV3"
    else .ok cells

/-- `table_detector.detect_table`: try PP-StructureV3, fall back to the
OpenCV strategy on any exception. -/
def detect_table (modelCells : Option (List TableCell)) (W H : ℤ)
    (contours : List Rect) : Except String (List TableCell) :=
  match detect_with_paddleocr modelCells with
  | .ok cells => .ok cells
  | .error _ => .ok (detect_with_opencv W H contours)

/-! ## Orchestrator (`main.run_pipeline`) -/

/-- The `ocr_status` lifecycle states of a document. -/
inductive DocStatus where
  | uploaded
  | preprocessing
  | detecting_table
  | extracting_cells
  | recognizing_text
  | awaiting_review
  | failed
deriving DecidableEq

/-- `main.run_pipeline`, with the boundary collaborators abstracted:
`pre` is the outcome of download + preprocessing (its `.ok` carries the
normalized image's width and height), `modelCells`/`contours` feed the
table detector, and `call` the recognition model.  Any stage error is
caught once and the document ends `failed`; otherwise the stages run in
sequence and the document ends `awaiting_review` with the mapped rows. -/
def run_pipeline (pre : Except String (ℤ × ℤ))
    (modelCells : Option (List TableCell)) (contours : List Rect)
    (call : ExtractedCell → CallOutcome) : DocStatus × List Row :=
  match pre with
  | .error _ => (.failed, [])
  | .ok (W, H) =>
    match detect_table modelCells W H contours with
    | .error _ => (.failed, [])
    | .ok table_cells =>
      let cell_crops := extract_cells W H table_cells
      let recognized := recognize_cells call cell_crops
      let rows := map_to_schema recognized
      (.awaiting_review, rows)

/-! ## Concrete instances used to exercise the pipeline -/

/-- A 10×10 bbox at the origin. -/
def bbox10 : BBox := ⟨0, 0, 10, 10⟩

/-- A well-formed extracted child-name cell with a 10×10 crop. -/
def ecellName : ExtractedCell :=
  { row_idx := 1, col_idx := 0, field_name := "nama_anak",
    field_context := "", crop_w := 10, crop_h := 10, text_hint := "",
    bbox := bbox10 }

/-- A recognition model that always answers `Budi`. -/
def callBudi : ExtractedCell → CallOutcome := fun _ => .ok "Budi"

/-- A recognition model whose calls always raise. -/
def callBoom : ExtractedCell → CallOutcome := fun _ => .error "boom"

/-- A recognized child-name cell that was read as blank: empty text and
the 0.3 confidence `_calculate_confidence` gives empty text without a
hint. -/
def blankNameCell : RecognizedCell :=
  { row_idx := 1, col_idx := 0, field_name := "nama_anak",
    field_context := "", crop_w := 10, crop_h := 10, text_hint := "",
    bbox := bbox10, text := "", confidence := 0.3, error := none }

/-- The single row `map_to_schema` assembles from `blankNameCell`. -/
def blankNameRow : Row :=
  finishRow { row_index := 1, confidences := [("nama_anak", 0.3)],
              bboxes := [("nama_anak", bbox10)],
              fields := [("nama_anak", none)] }

/-- A detected table cell on row 1, column 0, whose bbox sticks out of a
100×100 image on the left. -/
def tcellOverhang : TableCell :=
  { row_idx := 1, col_idx := 0, x1 := -5, y1 := 3, x2 := 120, y2 := 90 }

/-- The extracted cell `extract_cells` produces from `tcellOverhang` on a
100×100 image. -/
def ecellOverhang : ExtractedCell :=
  { row_idx := 1, col_idx := 0, field_name := "nama_anak",
    field_context :=
      "Nama lengkap anak balita, bahasa Indonesia, kemungkinan tulisan tangan",
    crop_w := 100, crop_h := 87, text_hint := "", bbox := ⟨0, 3, 100, 87⟩ }

/-- The row assembled from recognizing `ecellOverhang` with `callBudi`. -/
def rowBudi : Row :=
  finishRow (updateRow { row_index := 1 } (recognize_one callBudi ecellOverhang))

/-- Invariant of every row accumulator built from the cell list `S`: its
index is some cell's `row_idx`, its confidence dict is non-empty, and
every stored confidence is some cell's confidence for that field. -/
def RowOk (S : List RecognizedCell) (b : RowBuild) : Prop :=
  (∃ c ∈ S, c.row_idx = b.row_index) ∧ b.confidences ≠ [] ∧
    ∀ p ∈ b.confidences, ∃ c ∈ S, c.field_name = p.1 ∧ c.confidence = p.2


/-! ## Helper lemmas: dict and sort structure -/

theorem upsert_ne_nil {α : Type} (k : String) (v : α) (l : List (String × α)) :
    upsert k v l ≠ [] := by
  cases l with
  | nil => simp [upsert]
  | cons p rest =>
    unfold upsert
    split <;> simp

theorem mem_upsert {α : Type} {k : String} {v : α} {l : List (String × α)}
    {p : String × α} (hp : p ∈ upsert k v l) : p = (k, v) ∨ p ∈ l := by
  induction l with
  | nil => simpa [upsert] using hp
  | cons q rest ih =>
    unfold upsert at hp
    by_cases h : q.1 = k
    · rw [if_pos h] at hp
      rcases List.mem_cons.mp hp with h1 | h1
      · exact Or.inl h1
      · exact Or.inr (List.mem_cons_of_mem _ h1)
    · rw [if_neg h] at hp
      rcases List.mem_cons.mp hp with h1 | h1
      · exact Or.inr (h1 ▸ List.mem_cons_self _ _)
      · rcases ih h1 with h2 | h2
        · exact Or.inl h2
        · exact Or.inr (List.mem_cons_of_mem _ h2)

theorem mem_insRow {r a : Row} {l : List Row} (h : a ∈ insRow r l) :
    a = r ∨ a ∈ l := by
  induction l with
  | nil => simpa [insRow] using h
  | cons x xs ih =>
    unfold insRow at h
    split at h
    · rcases List.mem_cons.mp h with h1 | h1
      · exact Or.inr (h1 ▸ List.mem_cons_self _ _)
      · rcases ih h1 with h2 | h2
        · exact Or.inl h2
        · exact Or.inr (List.mem_cons_of_mem _ h2)
    · rcases List.mem_cons.mp h with h1 | h1
      · exact Or.inl h1
      · exact Or.inr h1

theorem mem_sortRows {a : Row} {l : List Row} (h : a ∈ sortRows l) : a ∈ l := by
  induction l with
  | nil => simp [sortRows] at h
  | cons x xs ih =>
    unfold sortRows at h
    rcases mem_insRow h with h1 | h1
    · exact h1 ▸ List.mem_cons_self _ _
    · exact List.mem_cons_of_mem _ (ih h1)

/-! ## Helper lemmas: provenance of assembled rows -/

theorem updateRow_ok {S : List RecognizedCell} {b : RowBuild}
    {c : RecognizedCell} (hc : c ∈ S)
    (hb : (∃ d ∈ S, d.row_idx = b.row_index) ∧
      ∀ p ∈ b.confidences, ∃ d ∈ S, d.field_name = p.1 ∧ d.confidence = p.2) :
    RowOk S (updateRow b c) := by
  refine ⟨hb.1, upsert_ne_nil _ _ _, ?_⟩
  intro p hp
  rcases mem_upsert hp with h1 | h1
  · exact ⟨c, hc, by rw [h1], by rw [h1]⟩
  · exact hb.2 p h1

theorem insertCell_ok {S : List RecognizedCell} {c : RecognizedCell}
    (hc : c ∈ S) :
    ∀ (acc : List RowBuild), (∀ b ∈ acc, RowOk S b) →
      ∀ b ∈ insertCell acc c, RowOk S b := by
  intro acc
  induction acc with
  | nil =>
    intro _ b hb
    simp only [insertCell, List.mem_singleton] at hb
    subst hb
    exact updateRow_ok hc ⟨⟨c, hc, rfl⟩, by simp⟩
  | cons b0 bs ih =>
    intro hacc b hb
    unfold insertCell at hb
    split at hb
    · rcases List.mem_cons.mp hb with h1 | h1
      · subst h1
        have h0 := hacc b0 (List.mem_cons_self _ _)
        exact updateRow_ok hc ⟨h0.1, h0.2.2⟩
      · exact hacc b (List.mem_cons_of_mem _ h1)
    · rcases List.mem_cons.mp hb with h1 | h1
      · exact h1 ▸ hacc b0 (List.mem_cons_self _ _)
      · exact ih (fun d hd => hacc d (List.mem_cons_of_mem _ hd)) b h1

theorem foldl_insertCell_ok {S : List RecognizedCell} :
    ∀ (cells : List RecognizedCell) (acc : List RowBuild),
      (∀ c ∈ cells, c ∈ S) → (∀ b ∈ acc, RowOk S b) →
      ∀ b ∈ cells.foldl insertCell acc, RowOk S b := by
  intro cells
  induction cells with
  | nil => intro acc _ hacc b hb; exact hacc b hb
  | cons c cs ih =>
    intro acc hsub hacc b hb
    simp only [List.foldl_cons] at hb
    exact ih (insertCell acc c)
      (fun d hd => hsub d (List.mem_cons_of_mem _ hd))
      (insertCell_ok (hsub c (List.mem_cons_self _ _)) acc hacc) b hb

theorem buildRows_ok {cells : List RecognizedCell} {b : RowBuild}
    (hb : b ∈ buildRows cells) : RowOk cells b :=
  foldl_insertCell_ok cells [] (fun _ h => h) (by simp) b hb

/-- Every emitted row is `finishRow` of some accumulator satisfying the
provenance invariant. -/
theorem mem_map_to_schema {cells : List RecognizedCell} {r : Row}
    (hr : r ∈ map_to_schema cells) :
    ∃ b ∈ buildRows cells, r = finishRow b := by
  unfold map_to_schema at hr
  rcases List.mem_map.mp (mem_sortRows hr) with ⟨b, hb, hfb⟩
  exact ⟨b, hb, hfb.symm⟩

/-! ## Helper lemmas: rounding and confidence arithmetic -/

theorem pyRound2_centi (q : ℚ) : ∃ n : ℤ, pyRound2 q = n / 100 :=
  ⟨round (q * 100), rfl⟩

theorem pyRound2_bounds {q : ℚ} (h0 : 0 ≤ q) (h1 : q ≤ 1) :
    0 ≤ pyRound2 q ∧ pyRound2 q ≤ 1 := by
  have hl : (0 : ℤ) ≤ round (q * 100) := by
    rw [round_eq]
    exact Int.floor_nonneg.mpr (by linarith)
  have hu : round (q * 100) ≤ 100 := by
    rw [round_eq]
    have : (⌊q * 100 + 1 / 2⌋ : ℤ) < 101 :=
      Int.floor_lt.mpr (by push_cast; linarith)
    omega
  constructor
  · unfold pyRound2
    positivity
  · unfold pyRound2
    rw [div_le_one (by norm_num)]
    exact_mod_cast hu

theorem list_sum_nonneg {l : List ℚ} (h : ∀ q ∈ l, 0 ≤ q) : 0 ≤ l.sum := by
  induction l with
  | nil => simp
  | cons x xs ih =>
    simp only [List.sum_cons]
    have hx := h x (List.mem_cons_self _ _)
    have hxs := ih (fun q hq => h q (List.mem_cons_of_mem _ hq))
    linarith

theorem list_sum_le_length {l : List ℚ} (h : ∀ q ∈ l, q ≤ 1) :
    l.sum ≤ (l.length : ℚ) := by
  induction l with
  | nil => simp
  | cons x xs ih =>
    simp only [List.sum_cons, List.length_cons]
    have hx := h x (List.mem_cons_self _ _)
    have hxs := ih (fun q hq => h q (List.mem_cons_of_mem _ hq))
    push_cast
    linarith

/-- The average of a non-empty list of values in `[0, 1]` is in `[0, 1]`. -/
theorem avg_bounds {l : List ℚ} (hne : l ≠ [])
    (h : ∀ q ∈ l, 0 ≤ q ∧ q ≤ 1) :
    0 ≤ l.sum / (l.length : ℚ) ∧ l.sum / (l.length : ℚ) ≤ 1 := by
  have hlen : 0 < (l.length : ℚ) := by
    have : 0 < l.length := List.length_pos.mpr hne
    exact_mod_cast this
  constructor
  · exact div_nonneg (list_sum_nonneg (fun q hq => (h q hq).1)) hlen.le
  · rw [div_le_one hlen]
    exact list_sum_le_length (fun q hq => (h q hq).2)

/-- The base score for non-empty text always lies in `[0, 1]`. -/
theorem baseConfidence_bounds (text field : String) :
    0 ≤ baseConfidence text field ∧ baseConfidence text field ≤ 1 := by
  unfold baseConfidence
  split
  · split
    · split <;> norm_num
    · norm_num
  · split
    · split
      · split <;> norm_num
      · norm_num
    · split
      · split <;> norm_num
      · split
        · split <;> norm_num
        · split
          · split <;> norm_num
          · split
            · split <;> norm_num
            · split
              · split <;> norm_num
              · norm_num

/-- `_calculate_confidence` on empty text. -/
theorem calcConfidence_empty (field hint : String) :
    calcConfidence "" field hint = if hint = "" then 0.3 else 0.5 := rfl

/-- `_calculate_confidence` on non-empty text: the rounded, possibly
boosted base. -/
theorem calcConfidence_ne {text : String} (field hint : String)
    (ht : ¬text = "") :
    calcConfidence text field hint =
      pyRound2 (if hint ≠ "" ∧ pyStrip (pyLower hint) = pyStrip (pyLower text)
        then min (baseConfidence text field + 0.10) 1
        else baseConfidence text field) := by
  unfold calcConfidence
  rw [if_neg ht]

/-- `_calculate_confidence` on non-empty text with no hint. -/
theorem calcConfidence_ne_nohint {text : String} (field : String)
    (ht : ¬text = "") :
    calcConfidence text field "" = pyRound2 (baseConfidence text field) := by
  rw [calcConfidence_ne field "" ht, if_neg]
  simp

/-- Every value `_calculate_confidence` returns lies in `[0, 1]` and is
a multiple of 1/100. -/
theorem calcConfidence_bounds (text field hint : String) :
    0 ≤ calcConfidence text field hint ∧ calcConfidence text field hint ≤ 1 ∧
      ∃ n : ℤ, calcConfidence text field hint = n / 100 := by
  by_cases ht : text = ""
  · subst ht
    rw [calcConfidence_empty]
    by_cases hh : hint = ""
    · rw [if_pos hh]
      exact ⟨by norm_num, by norm_num, 30, by norm_num⟩
    · rw [if_neg hh]
      exact ⟨by norm_num, by norm_num, 50, by norm_num⟩
  · rw [calcConfidence_ne field hint ht]
    have hb := baseConfidence_bounds text field
    have hval : 0 ≤ (if hint ≠ "" ∧ pyStrip (pyLower hint) = pyStrip (pyLower text)
          then min (baseConfidence text field + 0.10) 1
          else baseConfidence text field) ∧
        (if hint ≠ "" ∧ pyStrip (pyLower hint) = pyStrip (pyLower text)
          then min (baseConfidence text field + 0.10) 1
          else baseConfidence text field) ≤ 1 := by
      split
      · constructor
        · apply le_min <;> [linarith [hb.1]; norm_num]
        · exact min_le_right _ _
      · exact hb
    have hr := pyRound2_bounds hval.1 hval.2
    exact ⟨hr.1, hr.2, pyRound2_centi _⟩

/-! ## Helper lemmas: cell extraction and recognition -/

/-- Characterization of an emitted extracted cell: it stems from a
non-header input cell with an in-bounds positive clip. -/
theorem mem_extract_cells {W H : ℤ} {cells : List TableCell}
    {e : ExtractedCell} (he : e ∈ extract_cells W H cells) :
    ∃ cell ∈ cells, cell.row_idx ≠ 0 ∧ e.row_idx = cell.row_idx ∧
      e.bbox.x = max 0 cell.x1 ∧ e.bbox.y = max 0 cell.y1 ∧
      e.bbox.width = min W cell.x2 - max 0 cell.x1 ∧
      e.bbox.height = min H cell.y2 - max 0 cell.y1 ∧
      max 0 cell.x1 < min W cell.x2 ∧ max 0 cell.y1 < min H cell.y2 ∧
      e.crop_w = e.bbox.width ∧ e.crop_h = e.bbox.height := by
  rcases List.mem_filterMap.mp he with ⟨cell, hcell, heq⟩
  dsimp only at heq
  split at heq
  · exact absurd heq (by simp)
  next h0 =>
    split at heq
    · exact absurd heq (by simp)
    next fname hmap =>
      split at heq
      · exact absurd heq (by simp)
      next hgeom =>
        push_neg at hgeom
        cases Option.some.inj heq
        exact ⟨cell, hcell, h0, rfl, rfl, rfl, rfl, rfl,
          hgeom.1, hgeom.2, rfl, rfl⟩

/-- `recognize_one` preserves every field of the extracted cell. -/
theorem recognize_one_preserves (call : ExtractedCell → CallOutcome)
    (c : ExtractedCell) :
    (recognize_one call c).row_idx = c.row_idx ∧
      (recognize_one call c).col_idx = c.col_idx ∧
      (recognize_one call c).field_name = c.field_name ∧
      (recognize_one call c).bbox = c.bbox := by
  unfold recognize_one
  split
  · exact ⟨rfl, rfl, rfl, rfl⟩
  · split <;> exact ⟨rfl, rfl, rfl, rfl⟩

/-- Every confidence the recognizer emits is in `[0, 1]` and a multiple
of 1/100. -/
theorem recognize_one_conf_bounds (call : ExtractedCell → CallOutcome)
    (c : ExtractedCell) :
    0 ≤ (recognize_one call c).confidence ∧
      (recognize_one call c).confidence ≤ 1 ∧
      ∃ n : ℤ, (recognize_one call c).confidence = n / 100 := by
  unfold recognize_one
  split
  · exact ⟨le_refl 0, by norm_num, 0, by norm_num⟩
  · split
    · exact ⟨le_refl 0, by norm_num, 0, by norm_num⟩
    · exact calcConfidence_bounds _ _ _

/-! ## Claim theorems -/

/-- C1 (counterexample): at empty recognized text and empty hint the
confidence is 0.3, not the 0.5 the claim's no-hint clause demands. -/
theorem c1_counterexample :
    calcConfidence "" "nama_anak" "" = 0.3 ∧ (0.3 : ℚ) ≠ 0.5 := by
  refine ⟨?_, by norm_num⟩
  rw [calcConfidence_empty]
  norm_num

/-- C1 (amended): for every field name and every detector hint, when the
recognized text is empty the confidence is 0.3 when no hint was
available, and 0.5 when a hint was available. -/
theorem c1_amended (field hint : String) :
    calcConfidence "" field hint = if hint = "" then 0.3 else 0.5 :=
  calcConfidence_empty field hint

/-- C2 (counterexample): the weight text `"50"` parses as a float but is
out of range, and its confidence is the default base 0.75, not the 0.40
the claim demands for out-of-range values. -/
theorem c2_counterexample :
    calcConfidence "50" "bb_lalu" "" = 0.75 ∧ (0.75 : ℚ) ≠ 0.40 := by
  refine ⟨?_, by norm_num⟩
  rw [calcConfidence_ne_nohint "bb_lalu" (by decide)]
  have hbase : baseConfidence "50" "bb_lalu" = 0.75 := by
    unfold baseConfidence
    rw [if_pos (Or.inl rfl)]
    rw [show pyFloat (replaceCommaDot "50") =
      some (.fin (((50 : ℕ) : ℚ) + ((0 : ℕ) : ℚ) / (10 : ℚ) ^ (0 : ℕ))) from rfl]
    dsimp only
    rw [if_neg (by simp only [pyInRange, decide_eq_true_eq]; push_cast; norm_num)]
  rw [hbase]
  norm_num [pyRound2, round_eq]

/-- The weight-field branch of the base score. -/
theorem baseConfidence_weight (text field : String)
    (hf : field = "bb_lalu" ∨ field = "bb_sekarang") :
    baseConfidence text field =
      match pyFloat (replaceCommaDot text) with
      | some v => if pyInRange 1 v 30 then 0.90 else 0.75
      | none => 0.40 := by
  unfold baseConfidence
  rw [if_pos hf]

/-- The height-field branch of the base score. -/
theorem baseConfidence_tb (text : String) :
    baseConfidence text "tb" =
      match pyFloat (replaceCommaDot text) with
      | some v => if pyInRange 30 v 130 then 0.90 else 0.75
      | none => 0.40 := by
  unfold baseConfidence
  rw [if_neg (by decide), if_pos rfl]

/-- C2 (amended): for non-empty text on a weight field the confidence
function normalizes comma decimal separators and yields base 0.90 when
the text parses as a float within 1.0–30.0, 0.40 when the text is
non-numeric, and the default base 0.75 when it parses but lies out of
range; the height field behaves the same with range 30.0–130.0. -/
theorem c2_amended (text : String) (ht : text ≠ "") :
    (∀ field, (field = "bb_lalu" ∨ field = "bb_sekarang") →
      ((∃ q : ℚ, pyFloat (replaceCommaDot text) = some (.fin q) ∧
          1 ≤ q ∧ q ≤ 30) → calcConfidence text field "" = 0.90) ∧
      (pyFloat (replaceCommaDot text) = none →
        calcConfidence text field "" = 0.40) ∧
      ((∃ q : ℚ, pyFloat (replaceCommaDot text) = some (.fin q) ∧
          ¬(1 ≤ q ∧ q ≤ 30)) → calcConfidence text field "" = 0.75)) ∧
    (((∃ q : ℚ, pyFloat (replaceCommaDot text) = some (.fin q) ∧
        30 ≤ q ∧ q ≤ 130) → calcConfidence text "tb" "" = 0.90) ∧
      (pyFloat (replaceCommaDot text) = none →
        calcConfidence text "tb" "" = 0.40) ∧
      ((∃ q : ℚ, pyFloat (replaceCommaDot text) = some (.fin q) ∧
          ¬(30 ≤ q ∧ q ≤ 130)) → calcConfidence text "tb" "" = 0.75)) := by
  constructor
  · intro field hf
    refine ⟨?_, ?_, ?_⟩
    · rintro ⟨q, hq, h1, h2⟩
      rw [calcConfidence_ne_nohint field ht, baseConfidence_weight text field hf,
        hq]
      dsimp only
      rw [if_pos (by simp only [pyInRange, decide_eq_true_eq]; exact ⟨h1, h2⟩)]
      norm_num [pyRound2, round_eq]
    · intro hq
      rw [calcConfidence_ne_nohint field ht, baseConfidence_weight text field hf,
        hq]
      norm_num [pyRound2, round_eq]
    · rintro ⟨q, hq, hout⟩
      rw [calcConfidence_ne_nohint field ht, baseConfidence_weight text field hf,
        hq]
      dsimp only
      rw [if_neg (by simp only [pyInRange, decide_eq_true_eq]; exact hout)]
      norm_num [pyRound2, round_eq]
  · refine ⟨?_, ?_, ?_⟩
    · rintro ⟨q, hq, h1, h2⟩
      rw [calcConfidence_ne_nohint "tb" ht, baseConfidence_tb text, hq]
      dsimp only
      rw [if_pos (by simp only [pyInRange, decide_eq_true_eq]; exact ⟨h1, h2⟩)]
      norm_num [pyRound2, round_eq]
    · intro hq
      rw [calcConfidence_ne_nohint "tb" ht, baseConfidence_tb text, hq]
      norm_num [pyRound2, round_eq]
    · rintro ⟨q, hq, hout⟩
      rw [calcConfidence_ne_nohint "tb" ht, baseConfidence_tb text, hq]
      dsimp only
      rw [if_neg (by simp only [pyInRange, decide_eq_true_eq]; exact hout)]
      norm_num [pyRound2, round_eq]

/-- C2 (witness): `"8,5"` on a weight field scores 0.90, `"abc"` scores
0.40, and the in-grammar but out-of-range `"200"` on the height field
scores 0.75. -/
theorem c2_witness :
    calcConfidence "8,5" "bb_lalu" "" = 0.90 ∧
    calcConfidence "abc" "bb_lalu" "" = 0.40 ∧
    calcConfidence "200" "tb" "" = 0.75 :=
  ⟨((c2_amended "8,5" (by decide)).1 "bb_lalu" (Or.inl rfl)).1
      ⟨(8 : ℚ) + 5 / 10 ^ 1, rfl, by norm_num, by norm_num⟩,
   ((c2_amended "abc" (by decide)).1 "bb_lalu" (Or.inl rfl)).2.1 rfl,
   (c2_amended "200" (by decide)).2.2.2
      ⟨(200 : ℚ) + 0 / 10 ^ 0, rfl, by norm_num⟩⟩

/-- C3 (counterexample): with the layout model raising and no fallback
candidates, the detector returns `ok []` rather than an error, and the
pipeline ends `awaiting_review` with zero rows rather than `failed`. -/
theorem c3_counterexample :
    detect_table none 100 100 [] = Except.ok ([] : List TableCell) ∧
    run_pipeline (.ok (100, 100)) none [] (fun _ => .ok "") =
      (DocStatus.awaiting_review, ([] : List Row)) ∧
    DocStatus.awaiting_review ≠ DocStatus.failed :=
  ⟨rfl, rfl, by decide⟩

/-- C3 (amended): if the primary layout-model strategy fails and the
morphological fallback yields zero cells, the detector returns an empty
cell list without error, and the orchestrator runs the remaining stages
on empty data, ending `awaiting_review` with zero rows rather than
`failed`. -/
theorem c3_amended (modelCells : Option (List TableCell)) (W H : ℤ)
    (contours : List Rect) (call : ExtractedCell → CallOutcome)
    (herr : ∃ e, detect_with_paddleocr modelCells = .error e)
    (hcv : detect_with_opencv W H contours = []) :
    detect_table modelCells W H contours = .ok [] ∧
    run_pipeline (.ok (W, H)) modelCells contours call =
      (DocStatus.awaiting_review, []) := by
  obtain ⟨e, he⟩ := herr
  have hdet : detect_table modelCells W H contours = .ok [] := by
    unfold detect_table
    rw [he, hcv]
  refine ⟨hdet, ?_⟩
  unfold run_pipeline
  dsimp only
  rw [hdet]
  rfl

/-- C3 (witness): the amended statement at the concrete failing inputs. -/
theorem c3_witness :
    detect_table none 100 100 [] = Except.ok ([] : List TableCell) ∧
    run_pipeline (.ok (100, 100)) none [] (fun _ => .ok "") =
      (DocStatus.awaiting_review, []) :=
  c3_amended none 100 100 [] (fun _ => .ok "")
    ⟨"PP-StructureV3 raised", rfl⟩ rfl

/-- C6: birth-date parsing is idempotent on its own output:
`"05/03/2022"` maps to itself, `"5-3-22"` normalizes to `"05/03/2022"`
(2-digit year below 50 pivots to the 2000s), and `"05/03/1995"`, whose
year lies outside 2010–2030, falls back to the raw text unchanged. -/
theorem c6_date_idempotent :
    parse_field "tanggal_lahir" "05/03/2022" = some "05/03/2022" ∧
    parse_field "tanggal_lahir" "5-3-22" = some "05/03/2022" ∧
    parse_field "tanggal_lahir" "05/03/1995" = some "05/03/1995" := by
  refine ⟨?_, ?_, ?_⟩ <;> decide

/-- C4 (counterexample): a row assembled from a single blank cell has no
populated field, yet its average confidence is the blank cell's 0.3
score, not the 0.0 the claim demands for rows without populated fields. -/
theorem c4_counterexample :
    map_to_schema [blankNameCell] = [blankNameRow] ∧
    blankNameRow.fields = [("nama_anak", none)] ∧
    blankNameRow.confidence_avg = 0.3 ∧ (0.3 : ℚ) ≠ 0 := by
  refine ⟨rfl, rfl, ?_, by norm_num⟩
  show (if ([("nama_anak", (0.3 : ℚ))] : List (String × ℚ)) = [] then (0 : ℚ)
    else pyRound2 (([("nama_anak", (0.3 : ℚ))].map Prod.snd).sum /
      (([("nama_anak", (0.3 : ℚ))] : List (String × ℚ)).length : ℚ))) = 0.3
  rw [if_neg (by simp)]
  simp only [List.map_cons, List.map_nil, List.sum_cons, List.sum_nil,
    List.length_singleton]
  norm_num [pyRound2, round_eq]

/-- C4 (amended): for every assembled row, `average_confidence` is the
2-decimal-rounded arithmetic mean of the confidences of all fields of
the row — each cell contributes its confidence whether or not its parsed
value is null — and the confidence dict of an assembled row is never
empty, so the 0.0 branch never applies to an assembled row. -/
theorem c4_amended (cells : List RecognizedCell) (r : Row)
    (hr : r ∈ map_to_schema cells) :
    r.confidences ≠ [] ∧
    r.confidence_avg =
      pyRound2 ((r.confidences.map Prod.snd).sum /
        (r.confidences.length : ℚ)) ∧
    ∀ p ∈ r.confidences, ∃ c ∈ cells, c.field_name = p.1 ∧
      c.confidence = p.2 := by
  rcases mem_map_to_schema hr with ⟨b, hb, rfl⟩
  have hok := buildRows_ok hb
  refine ⟨hok.2.1, ?_, hok.2.2⟩
  simp only [finishRow]
  rw [if_neg hok.2.1]

/-- C4 (witness): the amended statement at the single-blank-cell row. -/
theorem c4_witness :
    blankNameRow.confidences ≠ [] ∧
    blankNameRow.confidence_avg =
      pyRound2 ((blankNameRow.confidences.map Prod.snd).sum /
        (blankNameRow.confidences.length : ℚ)) ∧
    ∀ p ∈ blankNameRow.confidences, ∃ c ∈ [blankNameCell],
      c.field_name = p.1 ∧ c.confidence = p.2 :=
  c4_amended [blankNameCell] blankNameRow
    ((show map_to_schema [blankNameCell] = [blankNameRow] from rfl) ▸
      List.mem_singleton_self blankNameRow)

/-- C5: the recognizer returns exactly one recognized cell per input
cell, in order; the i-th output is a function of the i-th input and its
own call only; a failed call degrades that cell to empty text, zero
confidence and an error note; and changing other cells' outcomes leaves
a cell's result untouched. -/
theorem c5_recognizer (call : ExtractedCell → CallOutcome)
    (cells : List ExtractedCell) :
    (recognize_cells call cells).length = cells.length ∧
    (∀ (i : ℕ) (c : ExtractedCell), cells[i]? = some c →
      (recognize_cells call cells)[i]? = some (recognize_one call c)) ∧
    (∀ (i : ℕ) (c : ExtractedCell) (e : String), cells[i]? = some c →
      c.crop_w * c.crop_h ≠ 0 → call c = .error e →
      ∃ rc, (recognize_cells call cells)[i]? = some rc ∧
        rc.text = "" ∧ rc.confidence = 0 ∧ rc.error = some e ∧
        rc.row_idx = c.row_idx ∧ rc.field_name = c.field_name) ∧
    (∀ (call2 : ExtractedCell → CallOutcome) (i : ℕ) (c : ExtractedCell),
      cells[i]? = some c → call c = call2 c →
      (recognize_cells call cells)[i]? = (recognize_cells call2 cells)[i]?) := by
  refine ⟨List.length_map _ _, ?_, ?_, ?_⟩
  · intro i c hc
    unfold recognize_cells
    rw [List.getElem?_map, hc]
    rfl
  · intro i c e hc hcrop herr
    refine ⟨recognize_one call c, ?_, ?_⟩
    · unfold recognize_cells
      rw [List.getElem?_map, hc]
      rfl
    · unfold recognize_one
      rw [if_neg hcrop, herr]
      exact ⟨rfl, rfl, rfl, rfl, rfl⟩
  · intro call2 i c hc hcc
    unfold recognize_cells
    rw [List.getElem?_map, List.getElem?_map, hc]
    show some (recognize_one call c) = some (recognize_one call2 c)
    unfold recognize_one
    rw [hcc]

/-- C5 (witness): a one-cell batch whose only call raises still yields
one output, with empty text, zero confidence and the error note. -/
theorem c5_witness :
    (recognize_cells callBoom [ecellName]).length = [ecellName].length ∧
    ∃ rc, (recognize_cells callBoom [ecellName])[0]? = some rc ∧
      rc.text = "" ∧ rc.confidence = 0 ∧ rc.error = some "boom" ∧
      rc.row_idx = ecellName.row_idx ∧
      rc.field_name = ecellName.field_name :=
  ⟨(c5_recognizer callBoom [ecellName]).1,
    (c5_recognizer callBoom [ecellName]).2.2.1 0 ecellName "boom" rfl
      (by decide) rfl⟩

/-- C7: every per-cell confidence (from the scoring function, the
empty-crop case and the failure case) lies in `[0, 1]` and is a multiple
of 1/100 (so has exactly two decimal places; the +0.10 boost is capped
at 1.0), and every per-row average of confidences in `[0, 1]` again lies
in `[0, 1]` as a multiple of 1/100. -/
theorem c7_confidence_bounds :
    (∀ text field hint : String,
      0 ≤ calcConfidence text field hint ∧
        calcConfidence text field hint ≤ 1 ∧
        ∃ n : ℤ, calcConfidence text field hint = n / 100) ∧
    (∀ (call : ExtractedCell → CallOutcome) (cells : List ExtractedCell),
      ∀ rc ∈ recognize_cells call cells,
        0 ≤ rc.confidence ∧ rc.confidence ≤ 1 ∧
          ∃ n : ℤ, rc.confidence = n / 100) ∧
    (∀ cells : List RecognizedCell,
      (∀ c ∈ cells, 0 ≤ c.confidence ∧ c.confidence ≤ 1) →
      ∀ r ∈ map_to_schema cells,
        0 ≤ r.confidence_avg ∧ r.confidence_avg ≤ 1 ∧
          ∃ n : ℤ, r.confidence_avg = n / 100) := by
  refine ⟨calcConfidence_bounds, ?_, ?_⟩
  · intro call cells rc hrc
    rcases List.mem_map.mp hrc with ⟨c, _, rfl⟩
    exact recognize_one_conf_bounds call c
  · intro cells hcells r hr
    rcases mem_map_to_schema hr with ⟨b, hb, rfl⟩
    have hok := buildRows_ok hb
    have havg : (finishRow b).confidence_avg =
        pyRound2 ((b.confidences.map Prod.snd).sum /
          (b.confidences.length : ℚ)) := by
      simp only [finishRow]
      rw [if_neg hok.2.1]
    have hvals : ∀ q ∈ b.confidences.map Prod.snd, 0 ≤ q ∧ q ≤ 1 := by
      intro q hq
      rcases List.mem_map.mp hq with ⟨p, hp, rfl⟩
      rcases hok.2.2 p hp with ⟨c, hc, _, hconf⟩
      exact hconf ▸ hcells c hc
    have hne : b.confidences.map Prod.snd ≠ [] := by
      intro h
      exact hok.2.1 (List.map_eq_nil_iff.mp h)
    have hlen : ((b.confidences.map Prod.snd).length : ℚ) =
        (b.confidences.length : ℚ) := by
      rw [List.length_map]
    have hb2 := avg_bounds hne hvals
    rw [hlen] at hb2
    have hr2 := pyRound2_bounds hb2.1 hb2.2
    rw [havg]
    exact ⟨hr2.1, hr2.2, pyRound2_centi _⟩

/-- C7 (witness): the row-average clause at the single-blank-cell row. -/
theorem c7_witness :
    0 ≤ blankNameRow.confidence_avg ∧ blankNameRow.confidence_avg ≤ 1 ∧
      ∃ n : ℤ, blankNameRow.confidence_avg = n / 100 :=
  c7_confidence_bounds.2.2 [blankNameCell]
    (by
      intro c hc
      rw [List.mem_singleton] at hc
      subst hc
      exact ⟨by norm_num [blankNameCell], by norm_num [blankNameCell]⟩)
    blankNameRow
    ((show map_to_schema [blankNameCell] = [blankNameRow] from rfl) ▸
      List.mem_singleton_self blankNameRow)

/-- C8: no header cell (`row_idx == 0`) survives cell extraction, and
every row the schema mapper assembles from extracted-and-recognized
cells has `row_index ≥ 1`. -/
theorem c8_header_excluded :
    (∀ (W H : ℤ) (tcells : List TableCell),
      ∀ e ∈ extract_cells W H tcells, e.row_idx ≠ 0) ∧
    (∀ (W H : ℤ) (tcells : List TableCell)
      (call : ExtractedCell → CallOutcome),
      ∀ r ∈ map_to_schema (recognize_cells call (extract_cells W H tcells)),
        1 ≤ r.row_index) := by
  constructor
  · intro W H tcells e he
    rcases mem_extract_cells he with ⟨cell, _, h0, hrow, _⟩
    rw [hrow]
    exact h0
  · intro W H tcells call r hr
    rcases mem_map_to_schema hr with ⟨b, hb, rfl⟩
    have hok := buildRows_ok hb
    rcases hok.1 with ⟨c, hc, hcrow⟩
    rcases List.mem_map.mp hc with ⟨e, he, rfl⟩
    rcases mem_extract_cells he with ⟨cell, _, h0, hrow, _⟩
    have hpres := (recognize_one_preserves call e).1
    have : (finishRow b).row_index = b.row_index := rfl
    rw [this, ← hcrow, hpres, hrow]
    exact Nat.one_le_iff_ne_zero.mpr h0

/-- C8 (witness): the assembled-row clause at a concrete one-cell
table. -/
theorem c8_witness : 1 ≤ rowBudi.row_index :=
  c8_header_excluded.2 100 100 [tcellOverhang] callBudi rowBudi
    ((show map_to_schema
        (recognize_cells callBudi (extract_cells 100 100 [tcellOverhang])) =
        [rowBudi] from rfl) ▸ List.mem_singleton_self rowBudi)

/-- C9: for every image size and every detected cell, an emitted
extracted cell has a strictly positive crop and a clipped bbox inside
`[0, W] × [0, H]`. -/
theorem c9_bbox_bounds (W H : ℤ) (cells : List TableCell) :
    ∀ e ∈ extract_cells W H cells,
      0 < e.bbox.width ∧ 0 < e.bbox.height ∧
      0 ≤ e.bbox.x ∧ e.bbox.x + e.bbox.width ≤ W ∧
      0 ≤ e.bbox.y ∧ e.bbox.y + e.bbox.height ≤ H ∧
      0 < e.crop_w ∧ 0 < e.crop_h := by
  intro e he
  rcases mem_extract_cells he with
    ⟨cell, _, _, _, hx, hy, hw, hh, hxl, hyl, hcw, hch⟩
  have hxw : e.bbox.x + e.bbox.width = min W cell.x2 := by
    rw [hx, hw]; ring
  have hyh : e.bbox.y + e.bbox.height = min H cell.y2 := by
    rw [hy, hh]; ring
  refine ⟨?_, ?_, ?_, ?_, ?_, ?_, ?_, ?_⟩
  · rw [hw]; linarith
  · rw [hh]; linarith
  · rw [hx]; exact le_max_left _ _
  · rw [hxw]; exact min_le_left _ _
  · rw [hy]; exact le_max_left _ _
  · rw [hyh]; exact min_le_left _ _
  · rw [hcw, hw]; linarith
  · rw [hch, hh]; linarith

/-- C9 (witness): the bounds at a cell whose raw bbox overhangs a
100×100 image on three sides. -/
theorem c9_witness :
    0 < ecellOverhang.bbox.width ∧ 0 < ecellOverhang.bbox.height ∧
    0 ≤ ecellOverhang.bbox.x ∧
    ecellOverhang.bbox.x + ecellOverhang.bbox.width ≤ 100 ∧
    0 ≤ ecellOverhang.bbox.y ∧
    ecellOverhang.bbox.y + ecellOverhang.bbox.height ≤ 100 ∧
    0 < ecellOverhang.crop_w ∧ 0 < ecellOverhang.crop_h :=
  c9_bbox_bounds 100 100 [tcellOverhang] ecellOverhang
    ((show extract_cells 100 100 [tcellOverhang] = [ecellOverhang] from rfl) ▸
      List.mem_singleton_self ecellOverhang)

/-- C10: for every schema field, the field parser returns null exactly
when the raw text is empty after trimming; any non-empty trimmed text
yields a non-null string on every branch. -/
theorem c10_parse_field_null (field raw : String) :
    parse_field field raw = none ↔ pyStrip raw = "" := by
  unfold parse_field
  dsimp only
  by_cases h : pyStrip raw = ""
  · rw [if_pos h]
    simp [h]
  · rw [if_neg h]
    constructor
    · intro hnone
      exfalso
      split at hnone
      · split at hnone <;> simp at hnone
      · split at hnone
        · simp at hnone
        · split at hnone
          · split at hnone
            · simp at hnone
            · split at hnone <;> simp at hnone
          · split at hnone
            · split at hnone
              · simp at hnone
              · split at hnone <;> simp at hnone
            · simp at hnone
    · intro hraw
      exact absurd hraw h
